import Mathlib

/- Shallow embedding of the playerroutes-web client core.
   Live sync handler: src/hooks/useWebSocket.ts (session map, route_point
   ingestion, historical merge, connect/reconnect/backoff state machine).
   Renderer and interaction controller: src/components/MapCanvas.tsx
   (viewport transform, world bounds, chevron spacing along routes). -/

/- ===================== Definitions: data model ===================== -/

/-- World point, from storage.ts `RoutePoint`. -/
structure RoutePoint where
  t : ℤ
  x : ℝ
  y : ℝ
  z : ℝ
  dim : String

/-- Cumulative per-session stats, from storage.ts `SessionStats`. -/
structure SessionStats where
  samples : ℕ
  distanceXZ : ℝ

/-- One tracked player session, from storage.ts `PlayerSession`
    (the `_id` is carried as the key of the session map). -/
structure PlayerSession where
  playerUuid : String
  playerName : String
  startedAt : ℤ
  endedAt : Option ℤ
  active : Bool
  lastSeenAt : ℤ
  stats : SessionStats
  path : List RoutePoint

/-- The session map `Map<string, PlayerSession>`, as an association list
    keyed by `_id` (JS `Map` semantics: unique keys, insertion order). -/
abbrev SessionMap := List (String × PlayerSession)

/-- Lookup in the session map (`sessions.get(id)` / `next.has(id)`). -/
def findSession (m : SessionMap) (sid : String) : Option PlayerSession :=
  match m with
  | [] => none
  | (k, s) :: rest => if k = sid then some s else findSession rest sid

/- ============ Definitions: useWebSocket message handling ============ -/

/-- The `route_point` branch of `handleMessage` applied to one located
    session (useWebSocket.ts lines 152-163): push the point, bump
    `lastSeenAt`, increment `samples`, and when more than one point is on
    the path add the planar X/Z distance from the previously-last point. -/
noncomputable def routePointUpdate (s : PlayerSession) (p : RoutePoint) : PlayerSession :=
  let path := s.path ++ [p]
  let samples := s.stats.samples + 1
  let distanceXZ :=
    if 1 < path.length then
      let lastPoint := path.getD (path.length - 2) p
      let dx := p.x - lastPoint.x
      let dz := p.z - lastPoint.z
      s.stats.distanceXZ + Real.sqrt (dx * dx + dz * dz)
    else
      s.stats.distanceXZ
  { s with
    path := path
    lastSeenAt := p.t
    stats := { samples := samples, distanceXZ := distanceXZ } }

/-- The `route_point` case of `handleMessage` on the whole session map:
    locate by id and update if present, leave every other entry alone. -/
noncomputable def handleRoutePoint (m : SessionMap) (sid : String) (p : RoutePoint) : SessionMap :=
  m.map (fun e => if e.1 = sid then (e.1, routePointUpdate e.2 p) else e)

/-- Feeding a session a sequence of `route_point` payloads in order. -/
noncomputable def ingest (s : PlayerSession) (ps : List RoutePoint) : PlayerSession :=
  ps.foldl routePointUpdate s

/-- The merge step of `fetchHistoricalSessions` (useWebSocket.ts lines
    49-58): copy the previous map and add each fetched session only when
    its id is not already present. -/
def mergeHistorical (prev hist : SessionMap) : SessionMap :=
  hist.foldl (fun next e => if (findSession next e.1).isSome = true then next else next ++ [e]) prev

/- ========= Definitions: connection / reconnect state machine ========= -/

/-- Ready state of a browser WebSocket as far as `connect` inspects it. -/
inductive WsReady where
  | connecting
  | opened
  | closed
deriving DecidableEq

/-- One WebSocket object; `id` tracks object identity (creation order). -/
structure WsConn where
  id : ℕ
  ready : WsReady
deriving DecidableEq

/-- State owned by the hook: `wsRef`, `reconnectTimeoutRef` (pending
    retry delay in ms, `none` when no timer), `reconnectAttemptsRef`,
    a counter of WebSocket objects constructed so far, and `connected`. -/
structure HookState where
  ws : Option WsConn
  reconnectTimeout : Option ℕ
  reconnectAttempts : ℕ
  wsCreated : ℕ
  connected : Bool
deriving DecidableEq

/-- The freshly-mounted hook state. -/
def initialHook : HookState := ⟨none, none, 0, 0, false⟩

/-- True exactly when `wsRef.current?.readyState === WebSocket.OPEN`. -/
def wsIsOpen (s : HookState) : Bool :=
  match s.ws with
  | some c => if c.ready = WsReady.opened then true else false
  | none => false

/-- `connect` (useWebSocket.ts lines 68-107): return immediately when the
    current socket is OPEN, otherwise construct a fresh WebSocket and
    store it in `wsRef`; nothing else in the state is touched. -/
def connect (s : HookState) : HookState :=
  match s.ws with
  | some c =>
    if c.ready = WsReady.opened then s
    else { s with ws := some ⟨s.wsCreated, WsReady.connecting⟩, wsCreated := s.wsCreated + 1 }
  | none => { s with ws := some ⟨s.wsCreated, WsReady.connecting⟩, wsCreated := s.wsCreated + 1 }

/-- The hook's exposed `reconnect` is the bare `connect` callback
    (useWebSocket.ts line 221: `reconnect: connect`). -/
def reconnectOp : HookState → HookState := connect

/-- Backoff delay scheduled by `ws.onclose`:
    `Math.min(1000 * Math.pow(2, attempts), 30000)`. -/
def closeDelay (n : ℕ) : ℕ := min (1000 * 2 ^ n) 30000

/-- `ws.onopen` (lines 76-80): mark connected and reset the attempt
    counter; the socket that fired it is now OPEN. -/
def applyOpen (s : HookState) : HookState :=
  { s with
    connected := true
    reconnectAttempts := 0
    ws := s.ws.map (fun c => { c with ready := WsReady.opened }) }

/-- `ws.onclose` (lines 82-91): mark disconnected, drop the socket ref,
    schedule a reconnect after the backoff delay, bump the counter. -/
def applyClose (s : HookState) : HookState :=
  { s with
    connected := false
    ws := none
    reconnectTimeout := some (closeDelay s.reconnectAttempts)
    reconnectAttempts := s.reconnectAttempts + 1 }

/-- Delays scheduled across `k` consecutive closes with no open between. -/
def closeDelays (s : HookState) : ℕ → List ℕ
  | 0 => []
  | Nat.succ k => closeDelay s.reconnectAttempts :: closeDelays (applyClose s) k

/-- Effect-cleanup / `disconnect` (lines 189-196 and 199-206): clear any
    pending reconnect timer, then close the socket if one exists — which
    makes the browser fire that socket's `onclose` handler. -/
def teardown (s : HookState) : HookState :=
  let s1 := { s with reconnectTimeout := none }
  match s1.ws with
  | some _ => applyClose s1
  | none => s1

/- ======== Definitions: MapCanvas viewport transform (exact ℚ) ======== -/

/-- Pan/zoom state, from MapCanvas.tsx `interface Transform`. The source
    stores IEEE doubles; the embedding uses exact rationals, which agrees
    with the source on every exactly-representable input. -/
structure Transform where
  offsetX : ℚ
  offsetY : ℚ
  scale : ℚ
deriving DecidableEq

/-- `worldToScreen` (MapCanvas.tsx lines 218-225); `dims` is the
    viewport `(width, height)`. -/
def worldToScreen (dims : ℚ × ℚ) (t : Transform) (x z : ℚ) : ℚ × ℚ :=
  (x * t.scale + t.offsetX + dims.1 / 2, z * t.scale + t.offsetY + dims.2 / 2)

/-- `screenToWorld` (MapCanvas.tsx lines 228-235). -/
def screenToWorld (dims : ℚ × ℚ) (t : Transform) (sx sy : ℚ) : ℚ × ℚ :=
  ((sx - dims.1 / 2 - t.offsetX) / t.scale, (sy - dims.2 / 2 - t.offsetY) / t.scale)

/-- `centerOnPosition` (MapCanvas.tsx lines 87-94): raise the scale to at
    least 4 and aim the offsets straight at the requested world point. -/
def centerOnPosition (t : Transform) (x z : ℚ) : Transform :=
  let scale := max t.scale 4
  ⟨-x * scale, -z * scale, scale⟩

/-- `handleWheel` (MapCanvas.tsx lines 738-755). `mouseX`/`mouseY` are the
    cursor position relative to the viewport center, exactly as the
    handler computes them; `deltaY` is the wheel delta. -/
def handleWheel (t : Transform) (mouseX mouseY deltaY : ℚ) : Transform :=
  let delta : ℚ := if 0 < deltaY then 9 / 10 else 11 / 10
  let newScale := min (max (t.scale * delta) (1 / 100)) 50
  ⟨mouseX - (mouseX - t.offsetX) * (newScale / t.scale),
   mouseY - (mouseY - t.offsetY) * (newScale / t.scale),
   newScale⟩

/- =========== Definitions: MapCanvas world-bounds tracking =========== -/

/-- Running bounding box, from MapCanvas.tsx `worldBounds`. -/
structure WorldBounds where
  minX : ℚ
  maxX : ℚ
  minZ : ℚ
  maxZ : ℚ
  initialized : Bool
deriving DecidableEq

/-- The reset value `{ minX: 0, maxX: 0, minZ: 0, maxZ: 0, initialized: false }`. -/
def boundsReset : WorldBounds := ⟨0, 0, 0, 0, false⟩

/-- Minimum of a nonempty batch, as `Math.min(...xs)`. -/
def qListMin (a : ℚ) (l : List ℚ) : ℚ := l.foldl min a

/-- Maximum of a nonempty batch, as `Math.max(...xs)`. -/
def qListMax (a : ℚ) (l : List ℚ) : ℚ := l.foldl max a

/-- Bounds-relevant events: a non-empty tile finishing its load
    (`img.onload`, MapCanvas.tsx lines 258-278) and the one-shot seeding
    from historical path points (lines 196-210). -/
inductive MapEvent where
  | tileLoaded (chunkX chunkZ : ℤ)
  | histSeed (pts : List (ℚ × ℚ))

/-- Bounds update of a successful non-placeholder tile load
    (MapCanvas.tsx lines 265-275), with `CHUNK_SIZE = 16`. -/
def applyTileLoaded (b : WorldBounds) (chunkX chunkZ : ℤ) : WorldBounds :=
  let worldX : ℚ := chunkX * 16
  let worldZ : ℚ := chunkZ * 16
  if b.initialized = false then
    ⟨worldX, worldX + 16, worldZ, worldZ + 16, true⟩
  else
    ⟨min b.minX worldX, max b.maxX (worldX + 16),
     min b.minZ worldZ, max b.maxZ (worldZ + 16), true⟩

/-- Historical seeding (MapCanvas.tsx lines 200-210): when at least one
    historical point is in the dimension, assign a fresh box built from
    those points with a 100-unit pad on each side. -/
def applyHistSeed (b : WorldBounds) (pts : List (ℚ × ℚ)) : WorldBounds :=
  match pts with
  | [] => b
  | p :: rest =>
    ⟨qListMin p.1 (rest.map Prod.fst) - 100, qListMax p.1 (rest.map Prod.fst) + 100,
     qListMin p.2 (rest.map Prod.snd) - 100, qListMax p.2 (rest.map Prod.snd) + 100, true⟩

/-- One bounds-relevant event. -/
def applyMapEvent (b : WorldBounds) : MapEvent → WorldBounds
  | MapEvent.tileLoaded cx cz => applyTileLoaded b cx cz
  | MapEvent.histSeed pts => applyHistSeed b pts

/-- A whole sequence of bounds-relevant events, in order. -/
def runMapEvents (b : WorldBounds) (es : List MapEvent) : WorldBounds :=
  es.foldl applyMapEvent b

/-- Membership of a point in the rectangle a bounds value denotes; an
    uninitialized bounds value denotes the empty region. -/
def containsPt (b : WorldBounds) (p : ℚ × ℚ) : Prop :=
  b.initialized = true ∧ b.minX ≤ p.1 ∧ p.1 ≤ b.maxX ∧ b.minZ ≤ p.2 ∧ p.2 ≤ b.maxZ

instance (b : WorldBounds) (p : ℚ × ℚ) : Decidable (containsPt b p) := by
  unfold containsPt
  infer_instance

/-- Tile-load events built from a list of chunk coordinates. -/
def tileEvents (l : List (ℤ × ℤ)) : List MapEvent :=
  l.map (fun c => MapEvent.tileLoaded c.1 c.2)

/- ====== Definitions: MapCanvas route chevrons (drawRoute, ℝ) ====== -/

/-- Pixel length of one screen-space path segment, from `drawRoute`
    (MapCanvas.tsx line 505): `Math.sqrt((x2 - x1) ** 2 + (y2 - y1) ** 2)`. -/
noncomputable def segDist (a b : ℝ × ℝ) : ℝ :=
  Real.sqrt ((b.1 - a.1) ^ 2 + (b.2 - a.2) ^ 2)

/-- The chevron loop of `drawRoute` (MapCanvas.tsx lines 498-537) over the
    remaining screen points: accumulate pixel distance and each time it
    reaches the 60-pixel threshold reset the accumulator and draw one
    chevron. Returns how many chevrons are drawn. -/
noncomputable def chevronSteps : (ℝ × ℝ) → List (ℝ × ℝ) → ℝ → ℕ → ℕ
  | _, [], _, count => count
  | prev, q :: rest, acc, count =>
    if 60 ≤ acc + segDist prev q then chevronSteps q rest 0 (count + 1)
    else chevronSteps q rest (acc + segDist prev q) count

/-- Chevrons drawn along a selected route given its screen points. -/
noncomputable def chevronCount : List (ℝ × ℝ) → ℕ
  | [] => 0
  | p :: rest => chevronSteps p rest 0 0

/-- Total screen length of the path starting at `prev`. -/
noncomputable def pathLengthFrom : (ℝ × ℝ) → List (ℝ × ℝ) → ℝ
  | _, [] => 0
  | prev, q :: rest => segDist prev q + pathLengthFrom q rest

/-- Total screen length of a polyline. -/
noncomputable def pathLen : List (ℝ × ℝ) → ℝ
  | [] => 0
  | p :: rest => pathLengthFrom p rest

/- ============= Definitions: sample data and spec predicates ============= -/

/-- Overworld route point at planar position `(x, z)`. -/
def rp (t : ℤ) (x z : ℝ) : RoutePoint := ⟨t, x, 64, z, "minecraft:overworld"⟩

/-- A fresh active session with an empty path and zero stats. -/
def emptySession : PlayerSession := ⟨"uuid-1", "Alice", 0, none, true, 0, ⟨0, 0⟩, []⟩

/-- A live session as inserted by a `session_start` for id `"s1"`. -/
def liveSession : PlayerSession := ⟨"uuid-1", "Alice", 10, none, true, 99, ⟨7, 0⟩, []⟩

/-- A stale historical record for the same id `"s1"`. -/
def histSession : PlayerSession := ⟨"uuid-1", "Alice", 10, some 50, false, 50, ⟨3, 0⟩, []⟩

/-- What one `route_point` for a present session does to the map entry:
    the point is appended, `lastSeenAt` is bumped, `samples` grows by one,
    and `distanceXZ` grows by the planar distance from the previously-last
    point — by nothing when no prior point existed. -/
def routePointSpec (m : SessionMap) (sid : String) (p : RoutePoint) (s : PlayerSession) : Prop :=
  ∃ s2, findSession (handleRoutePoint m sid p) sid = some s2 ∧
    s2.path = s.path ++ [p] ∧
    s2.lastSeenAt = p.t ∧
    s2.stats.samples = s.stats.samples + 1 ∧
    (s.path = [] → s2.stats.distanceXZ = s.stats.distanceXZ) ∧
    (∀ lp, s.path.getLast? = some lp →
      s2.stats.distanceXZ = s.stats.distanceXZ +
        Real.sqrt ((p.x - lp.x) * (p.x - lp.x) + (p.z - lp.z) * (p.z - lp.z)))

/-- What one wheel event does: the scale is multiplied by the fixed factor
    and clamped into `[0.01, 50]`, and the world point that sat under the
    cursor is the same before and after — in particular it moves by less
    than `0.01` world units in each axis. -/
def wheelSpec (t : Transform) (mouseX mouseY deltaY w h : ℚ) : Prop :=
  (handleWheel t mouseX mouseY deltaY).scale
      = min (max (t.scale * (if 0 < deltaY then 9 / 10 else 11 / 10)) (1 / 100)) 50 ∧
  screenToWorld (w, h) (handleWheel t mouseX mouseY deltaY) (mouseX + w / 2) (mouseY + h / 2)
      = screenToWorld (w, h) t (mouseX + w / 2) (mouseY + h / 2) ∧
  |(screenToWorld (w, h) (handleWheel t mouseX mouseY deltaY) (mouseX + w / 2) (mouseY + h / 2)).1
      - (screenToWorld (w, h) t (mouseX + w / 2) (mouseY + h / 2)).1| < 1 / 100 ∧
  |(screenToWorld (w, h) (handleWheel t mouseX mouseY deltaY) (mouseX + w / 2) (mouseY + h / 2)).2
      - (screenToWorld (w, h) t (mouseX + w / 2) (mouseY + h / 2)).2| < 1 / 100

/- ========================== Helper lemmas ========================== -/

theorem findSession_append_some (l l2 : SessionMap) (sid : String) (s : PlayerSession)
    (h : findSession l sid = some s) : findSession (l ++ l2) sid = some s := by
  induction l with
  | nil => simp [findSession] at h
  | cons e rest ih =>
    obtain ⟨k, v⟩ := e
    by_cases hk : k = sid
    · simp only [findSession, hk, if_pos] at h ⊢
      · exact h
    · simp only [List.cons_append, findSession, hk, if_neg, ite_false] at h ⊢
      exact ih h

theorem findSession_handleRoutePoint (m : SessionMap) (sid : String) (p : RoutePoint) :
    findSession (handleRoutePoint m sid p) sid
      = (findSession m sid).map (fun s => routePointUpdate s p) := by
  induction m with
  | nil => rfl
  | cons e rest ih =>
    obtain ⟨k, v⟩ := e
    by_cases hk : k = sid
    · subst hk
      show findSession
          ((if (k, v).1 = k then ((k, v).1, routePointUpdate (k, v).2 p) else (k, v)) ::
            handleRoutePoint rest k p) k
          = Option.map (fun s => routePointUpdate s p) (findSession ((k, v) :: rest) k)
      rw [if_pos rfl]
      show (if k = k then some (routePointUpdate v p)
            else findSession (handleRoutePoint rest k p) k)
          = Option.map (fun s => routePointUpdate s p)
              (if k = k then some v else findSession rest k)
      rw [if_pos rfl, if_pos rfl]
      rfl
    · show findSession
          ((if (k, v).1 = sid then ((k, v).1, routePointUpdate (k, v).2 p) else (k, v)) ::
            handleRoutePoint rest sid p) sid
          = Option.map (fun s => routePointUpdate s p) (findSession ((k, v) :: rest) sid)
      rw [if_neg hk]
      show (if k = sid then some v else findSession (handleRoutePoint rest sid p) sid)
          = Option.map (fun s => routePointUpdate s p)
              (if k = sid then some v else findSession rest sid)
      rw [if_neg hk, if_neg hk]
      exact ih

theorem getD_last_append : ∀ (l : List RoutePoint) (p d lp : RoutePoint),
    l.getLast? = some lp → (l ++ [p]).getD (l.length - 1) d = lp
  | [], _, _, _, h => by simp at h
  | [a], p, d, lp, h => by
    simp [List.getLast?] at h
    simp [List.getD, h]
  | a :: b :: t, p, d, lp, h => by
    rw [List.getLast?_cons_cons] at h
    have ih := getD_last_append (b :: t) p d lp h
    show (a :: ((b :: t) ++ [p])).getD (t.length + 1) d = lp
    rw [List.getD_cons_succ]
    exact ih

theorem routePointUpdate_path (s : PlayerSession) (p : RoutePoint) :
    (routePointUpdate s p).path = s.path ++ [p] := rfl

theorem routePointUpdate_lastSeenAt (s : PlayerSession) (p : RoutePoint) :
    (routePointUpdate s p).lastSeenAt = p.t := rfl

theorem routePointUpdate_samples (s : PlayerSession) (p : RoutePoint) :
    (routePointUpdate s p).stats.samples = s.stats.samples + 1 := rfl

theorem routePointUpdate_dist_nil (s : PlayerSession) (p : RoutePoint) (h : s.path = []) :
    (routePointUpdate s p).stats.distanceXZ = s.stats.distanceXZ := by
  simp [routePointUpdate, h]

theorem routePointUpdate_dist_last (s : PlayerSession) (p : RoutePoint) (lp : RoutePoint)
    (h : s.path.getLast? = some lp) :
    (routePointUpdate s p).stats.distanceXZ = s.stats.distanceXZ +
      Real.sqrt ((p.x - lp.x) * (p.x - lp.x) + (p.z - lp.z) * (p.z - lp.z)) := by
  have hne : s.path ≠ [] := by
    intro hnil
    rw [hnil] at h
    simp at h
  have hpos : 0 < s.path.length := List.length_pos.mpr hne
  have hlen : 1 < (s.path ++ [p]).length := by
    rw [List.length_append, List.length_singleton]
    omega
  have hidx : (s.path ++ [p]).length - 2 = s.path.length - 1 := by
    rw [List.length_append, List.length_singleton]
    omega
  show (if 1 < (s.path ++ [p]).length then
      s.stats.distanceXZ +
        Real.sqrt ((p.x - ((s.path ++ [p]).getD ((s.path ++ [p]).length - 2) p).x) *
            (p.x - ((s.path ++ [p]).getD ((s.path ++ [p]).length - 2) p).x) +
          (p.z - ((s.path ++ [p]).getD ((s.path ++ [p]).length - 2) p).z) *
            (p.z - ((s.path ++ [p]).getD ((s.path ++ [p]).length - 2) p).z))
    else s.stats.distanceXZ) = _
  rw [if_pos hlen, hidx, getD_last_append s.path p p lp h]

/- ======================= Claim theorems: C1 ======================= -/

theorem sqrt_three_four : Real.sqrt
    (((rp 1 3 4).x - (rp 0 0 0).x) * ((rp 1 3 4).x - (rp 0 0 0).x) +
      ((rp 1 3 4).z - (rp 0 0 0).z) * ((rp 1 3 4).z - (rp 0 0 0).z)) = 5 := by
  show Real.sqrt (((3:ℝ) - 0) * ((3:ℝ) - 0) + (((4:ℝ) - 0) * ((4:ℝ) - 0))) = 5
  rw [show ((3:ℝ) - 0) * ((3:ℝ) - 0) + (((4:ℝ) - 0) * ((4:ℝ) - 0)) = 5 * 5 by norm_num]
  exact Real.sqrt_mul_self (by norm_num)

theorem sqrt_dup_zero : Real.sqrt
    (((rp 2 3 4).x - (rp 1 3 4).x) * ((rp 2 3 4).x - (rp 1 3 4).x) +
      ((rp 2 3 4).z - (rp 1 3 4).z) * ((rp 2 3 4).z - (rp 1 3 4).z)) = 0 := by
  show Real.sqrt (((3:ℝ) - 3) * ((3:ℝ) - 3) + (((4:ℝ) - 4) * ((4:ℝ) - 4))) = 0
  rw [show ((3:ℝ) - 3) * ((3:ℝ) - 3) + (((4:ℝ) - 4) * ((4:ℝ) - 4)) = 0 by norm_num]
  exact Real.sqrt_zero

/-- C1: for every session present in the session map, processing a
    `route_point` message appends the point, bumps `lastSeenAt`,
    increments `samples` by one, and adds to `distanceXZ` the planar X/Z
    Euclidean distance from the previously-last path point whenever at
    least one prior point existed (adding nothing for the first point);
    ingesting the points (0,0), (3,4), (3,4) into a fresh session yields
    `distanceXZ = 5` exactly, the duplicate third point adding 0. -/
theorem routePoint_distance_accumulation (m : SessionMap) (sid : String)
    (p : RoutePoint) (s : PlayerSession) (h : findSession m sid = some s) :
    routePointSpec m sid p s ∧
    (ingest emptySession [rp 0 0 0, rp 1 3 4, rp 2 3 4]).stats.distanceXZ = 5 ∧
    (ingest emptySession [rp 0 0 0, rp 1 3 4, rp 2 3 4]).stats.distanceXZ
      = (ingest emptySession [rp 0 0 0, rp 1 3 4]).stats.distanceXZ := by
  have hspec : routePointSpec m sid p s := by
    refine ⟨routePointUpdate s p, ?_, routePointUpdate_path s p,
      routePointUpdate_lastSeenAt s p, routePointUpdate_samples s p,
      routePointUpdate_dist_nil s p, fun lp hlp => routePointUpdate_dist_last s p lp hlp⟩
    rw [findSession_handleRoutePoint, h]
    rfl
  have h1 : (routePointUpdate emptySession (rp 0 0 0)).stats.distanceXZ
      = emptySession.stats.distanceXZ := routePointUpdate_dist_nil _ _ rfl
  have hl1 : (routePointUpdate emptySession (rp 0 0 0)).path.getLast? = some (rp 0 0 0) := by
    rw [routePointUpdate_path]
    rfl
  have h2 := routePointUpdate_dist_last (routePointUpdate emptySession (rp 0 0 0))
    (rp 1 3 4) (rp 0 0 0) hl1
  have hl2 : (routePointUpdate (routePointUpdate emptySession (rp 0 0 0)) (rp 1 3 4)).path.getLast?
      = some (rp 1 3 4) := by
    rw [routePointUpdate_path]
    exact List.getLast?_concat _
  have h3 := routePointUpdate_dist_last
    (routePointUpdate (routePointUpdate emptySession (rp 0 0 0)) (rp 1 3 4))
    (rp 2 3 4) (rp 1 3 4) hl2
  refine ⟨hspec, ?_, ?_⟩
  · show (routePointUpdate (routePointUpdate (routePointUpdate emptySession (rp 0 0 0))
      (rp 1 3 4)) (rp 2 3 4)).stats.distanceXZ = 5
    rw [h3, h2, h1, sqrt_three_four, sqrt_dup_zero]
    show (0:ℝ) + 5 + 0 = 5
    norm_num
  · show (routePointUpdate (routePointUpdate (routePointUpdate emptySession (rp 0 0 0))
      (rp 1 3 4)) (rp 2 3 4)).stats.distanceXZ
      = (routePointUpdate (routePointUpdate emptySession (rp 0 0 0)) (rp 1 3 4)).stats.distanceXZ
    rw [h3, sqrt_dup_zero, add_zero]

/-- C1 witness: the theorem applied to the one-session map for id "s1". -/
theorem routePoint_distance_accumulation_check :
    findSession [("s1", emptySession)] "s1" = some emptySession ∧
    (routePointSpec [("s1", emptySession)] "s1" (rp 0 0 0) emptySession ∧
     (ingest emptySession [rp 0 0 0, rp 1 3 4, rp 2 3 4]).stats.distanceXZ = 5 ∧
     (ingest emptySession [rp 0 0 0, rp 1 3 4, rp 2 3 4]).stats.distanceXZ
       = (ingest emptySession [rp 0 0 0, rp 1 3 4]).stats.distanceXZ) :=
  ⟨rfl, routePoint_distance_accumulation _ _ _ _ rfl⟩

/- ======================= Claim theorems: C2 ======================= -/

theorem closeDelays_eq (k : ℕ) : ∀ s : HookState,
    closeDelays s k = (List.range k).map (fun i => closeDelay (s.reconnectAttempts + i)) := by
  induction k with
  | zero => intro s; rfl
  | succ n ih =>
    intro s
    rw [closeDelays, ih (applyClose s), List.range_succ_eq_map, List.map_cons, List.map_map]
    refine congrArg₂ _ ?_ ?_
    · simp
    · refine List.map_congr_left ?_
      intro i _
      show closeDelay ((applyClose s).reconnectAttempts + i)
          = closeDelay (s.reconnectAttempts + (i + 1))
      have ha : (applyClose s).reconnectAttempts = s.reconnectAttempts + 1 := rfl
      rw [ha]
      congr 1
      omega

/-- C2: starting from a zero backoff counter (the initial state, or any
    state right after a successful open), `k` consecutive closes with no
    open in between schedule the delays `min(1000 * 2^i, 30000)` ms for
    `i = 0, 1, ..., k-1` — i.e. 1s, 2s, 4s, 8s, ... capped at 30s — and a
    successful open resets the counter so the next scheduled delay is 1s. -/
theorem reconnect_backoff_sequence (s s2 : HookState) (k : ℕ)
    (h : s.reconnectAttempts = 0) :
    closeDelays s k = (List.range k).map (fun i => min (1000 * 2 ^ i) 30000) ∧
    (applyOpen s2).reconnectAttempts = 0 ∧
    closeDelays (applyOpen s2) 1 = [1000] := by
  refine ⟨?_, rfl, rfl⟩
  rw [closeDelays_eq]
  refine List.map_congr_left ?_
  intro i _
  rw [h, closeDelay, Nat.zero_add]

/-- C2 witness: the first seven delays from the fresh hook state. -/
theorem reconnect_backoff_sequence_check :
    initialHook.reconnectAttempts = 0 ∧
    (closeDelays initialHook 7 = (List.range 7).map (fun i => min (1000 * 2 ^ i) 30000) ∧
     (applyOpen initialHook).reconnectAttempts = 0 ∧
     closeDelays (applyOpen initialHook) 1 = [1000]) :=
  ⟨rfl, reconnect_backoff_sequence initialHook initialHook 7 rfl⟩

/- ======================= Claim theorems: C3 ======================= -/

/-- C3 counterexample: in a state with a pending 4000 ms retry timer and
    backoff counter 3, the exposed `reconnect()` leaves the timer pending
    and the counter at 3 — it neither cancels the scheduled retry nor
    resets the backoff counter to zero, contradicting the claim. -/
theorem manual_reconnect_counterexample :
    (reconnectOp ⟨none, some 4000, 3, 5, false⟩).reconnectTimeout = some 4000 ∧
    (reconnectOp ⟨none, some 4000, 3, 5, false⟩).reconnectAttempts = 3 := ⟨rfl, rfl⟩

/-- C3 amended: the exposed `reconnect()` is exactly the plain `connect`
    callback: it never touches the pending retry timer or the backoff
    counter, is a no-op while the current connection is OPEN, and
    otherwise immediately opens a fresh WebSocket (without closing a
    non-open existing one). -/
theorem manual_reconnect_behavior (s : HookState) :
    reconnectOp s = connect s ∧
    (reconnectOp s).reconnectTimeout = s.reconnectTimeout ∧
    (reconnectOp s).reconnectAttempts = s.reconnectAttempts ∧
    (wsIsOpen s = true → reconnectOp s = s) ∧
    (wsIsOpen s = false →
      (reconnectOp s).ws = some ⟨s.wsCreated, WsReady.connecting⟩ ∧
      (reconnectOp s).wsCreated = s.wsCreated + 1) := by
  have hp : (connect s).reconnectTimeout = s.reconnectTimeout ∧
      (connect s).reconnectAttempts = s.reconnectAttempts ∧
      (wsIsOpen s = true → connect s = s) ∧
      (wsIsOpen s = false →
        (connect s).ws = some ⟨s.wsCreated, WsReady.connecting⟩ ∧
        (connect s).wsCreated = s.wsCreated + 1) := by
    unfold connect wsIsOpen
    cases hw : s.ws with
    | none => simp
    | some c => by_cases hr : c.ready = WsReady.opened <;> simp [hr]
  exact ⟨rfl, hp.1, hp.2.1, hp.2.2.1, hp.2.2.2⟩

/-- C3 witness: the amended behavior applied at a concrete non-open state
    with a pending timer. -/
theorem manual_reconnect_behavior_check :
    wsIsOpen ⟨none, some 500, 2, 0, false⟩ = false ∧
    ((reconnectOp ⟨none, some 500, 2, 0, false⟩).ws = some ⟨0, WsReady.connecting⟩ ∧
     (reconnectOp ⟨none, some 500, 2, 0, false⟩).wsCreated = 1) :=
  ⟨rfl, (manual_reconnect_behavior ⟨none, some 500, 2, 0, false⟩).2.2.2.2 rfl⟩

/- ======================= Claim theorems: C8 ======================= -/

/-- C8: the onclose handler has no notion of a deliberate close, so after
    teardown of a state with an open connection (timer cleared, socket
    closed) the fired close handler schedules a fresh reconnect: a 1000 ms
    retry timer is pending against the torn-down consumer, contradicting
    the claim that no reconnect remains scheduled — the code leaks the
    reconnect loop the spec warns about. -/
theorem teardown_schedules_reconnect :
    (teardown ⟨some ⟨0, WsReady.opened⟩, none, 0, 1, true⟩).reconnectTimeout = some 1000 ∧
    (teardown ⟨some ⟨0, WsReady.opened⟩, none, 0, 1, true⟩).reconnectTimeout ≠ none := by
  refine ⟨rfl, ?_⟩
  intro hc
  rw [show (teardown ⟨some ⟨0, WsReady.opened⟩, none, 0, 1, true⟩).reconnectTimeout
    = some 1000 from rfl] at hc
  exact Option.noConfusion hc

/- ======================= Claim theorems: C9 ======================= -/

/-- C9 counterexample: with a CONNECTING socket (id 0) in flight, calling
    `connect` is not ignored — it constructs a second WebSocket (id 1,
    creation count goes from 1 to 2) and replaces the ref, contradicting
    the claim that connect calls while connecting are ignored. -/
theorem connect_while_connecting_counterexample :
    (⟨some ⟨0, WsReady.connecting⟩, none, 0, 1, false⟩ : HookState).ws
      = some ⟨0, WsReady.connecting⟩ ∧
    (connect ⟨some ⟨0, WsReady.connecting⟩, none, 0, 1, false⟩).wsCreated = 2 ∧
    (connect ⟨some ⟨0, WsReady.connecting⟩, none, 0, 1, false⟩).ws
      = some ⟨1, WsReady.connecting⟩ := ⟨rfl, rfl, rfl⟩

/-- C9 amended: `connect` is ignored only while the existing connection is
    OPEN; in every other state (including an in-flight CONNECTING socket)
    it constructs a fresh WebSocket and overwrites the ref with it. -/
theorem connect_guard_only_open (s : HookState) :
    connect s = (if wsIsOpen s = true then s
      else { s with ws := some ⟨s.wsCreated, WsReady.connecting⟩, wsCreated := s.wsCreated + 1 }) := by
  unfold connect wsIsOpen
  cases hw : s.ws with
  | none => simp
  | some c => by_cases hr : c.ready = WsReady.opened <;> simp [hr]

/- ======================= Claim theorems: C4 ======================= -/

/-- C4: an id already present in the session map (e.g. inserted live by a
    `session_start`) is left completely unchanged by the historical merge,
    even when the fetched page contains the same id; historical entries
    are only ever added for absent ids. -/
theorem historical_merge_non_clobber (prev hist : SessionMap) (sid : String)
    (s : PlayerSession) (h : findSession prev sid = some s) :
    findSession (mergeHistorical prev hist) sid = some s := by
  induction hist generalizing prev with
  | nil => exact h
  | cons e t ih =>
    have hstep : findSession
        (if (findSession prev e.1).isSome = true then prev else prev ++ [e]) sid = some s := by
      split
      · exact h
      · exact findSession_append_some _ _ _ _ h
    simp only [mergeHistorical, List.foldl_cons] at ih ⊢
    exact ih _ hstep

/-- C4 witness: a live entry for "s1" survives a historical page that
    contains a stale record under the same id. -/
theorem historical_merge_non_clobber_check :
    findSession [("s1", liveSession)] "s1" = some liveSession ∧
    findSession (mergeHistorical [("s1", liveSession)] [("s1", histSession)]) "s1"
      = some liveSession :=
  ⟨rfl, historical_merge_non_clobber _ _ _ _ rfl⟩

/- ======================= Claim theorems: C10 ======================= -/

/-- C10: for every world point (x, z) and prior transform,
    `centerOnPosition` sets the scale to `max(previous scale, 4)` and the
    resulting `worldToScreen(x, z)` is exactly the viewport center
    `(width/2, height/2)`. -/
theorem center_on_position_exact (t : Transform) (x z w h : ℚ) :
    (centerOnPosition t x z).scale = max t.scale 4 ∧
    worldToScreen (w, h) (centerOnPosition t x z) x z = (w / 2, h / 2) := by
  refine ⟨rfl, ?_⟩
  unfold worldToScreen centerOnPosition
  rw [Prod.ext_iff]
  constructor <;> (simp only; ring)

/- ======================= Claim theorems: C7 ======================= -/

/-- C7: every wheel event multiplies the scale by the fixed factor (0.9
    zooming out, 1.1 zooming in) clamped into [0.01, 50], and re-solves
    the offsets so the world coordinate under the cursor is unchanged —
    in particular it moves by less than 0.01 world units per axis. -/
theorem zoom_to_cursor (t : Transform) (mouseX mouseY deltaY w h : ℚ)
    (hs : 0 < t.scale) : wheelSpec t mouseX mouseY deltaY w h := by
  have h1 : t.scale ≠ 0 := ne_of_gt hs
  have hns : (0:ℚ) < min (max (t.scale * (if 0 < deltaY then (9:ℚ) / 10 else 11 / 10)) (1 / 100)) 50 :=
    lt_min (lt_of_lt_of_le (by norm_num) (le_max_right _ _)) (by norm_num)
  have h2 : min (max (t.scale * (if 0 < deltaY then (9:ℚ) / 10 else 11 / 10)) (1 / 100)) 50 ≠ 0 :=
    ne_of_gt hns
  have comp : ∀ (offX m v sc ns : ℚ), sc ≠ 0 → ns ≠ 0 →
      (m + v / 2 - v / 2 - (m - (m - offX) * (ns / sc))) / ns
        = (m + v / 2 - v / 2 - offX) / sc := by
    intro offX m v sc ns hsc hns2
    field_simp
    ring
  have key : screenToWorld (w, h) (handleWheel t mouseX mouseY deltaY)
        (mouseX + w / 2) (mouseY + h / 2)
      = screenToWorld (w, h) t (mouseX + w / 2) (mouseY + h / 2) := by
    rw [Prod.ext_iff]
    exact ⟨comp t.offsetX mouseX w t.scale _ h1 h2, comp t.offsetY mouseY h t.scale _ h1 h2⟩
  refine ⟨rfl, key, ?_, ?_⟩ <;> rw [key] <;> norm_num

/-- C7 witness: the wheel invariant at a concrete transform and cursor. -/
theorem zoom_to_cursor_check :
    0 < (Transform.mk 0 0 2).scale ∧ wheelSpec ⟨0, 0, 2⟩ 10 20 1 800 600 :=
  ⟨by norm_num, zoom_to_cursor ⟨0, 0, 2⟩ 10 20 1 800 600 (by norm_num)⟩

/- ======================= Claim theorems: C6 ======================= -/

theorem containsPt_applyTileLoaded (b : WorldBounds) (cx cz : ℤ) (p : ℚ × ℚ)
    (h : containsPt b p) : containsPt (applyTileLoaded b cx cz) p := by
  obtain ⟨hinit, h1, h2, h3, h4⟩ := h
  unfold applyTileLoaded
  rw [hinit]
  simp only [Bool.true_eq_false, if_false]
  exact ⟨rfl, le_trans (min_le_left _ _) h1, le_trans h2 (le_max_left _ _),
    le_trans (min_le_left _ _) h3, le_trans h4 (le_max_left _ _)⟩

theorem containsPt_runTiles (l : List (ℤ × ℤ)) : ∀ (b : WorldBounds) (p : ℚ × ℚ),
    containsPt b p → containsPt (runMapEvents b (tileEvents l)) p := by
  induction l with
  | nil => intro b p h; exact h
  | cons c t ih =>
    intro b p h
    show containsPt (runMapEvents (applyTileLoaded b c.1 c.2) (tileEvents t)) p
    exact ih _ p (containsPt_applyTileLoaded b c.1 c.2 p h)

theorem runMapEvents_append (b : WorldBounds) (l1 l2 : List MapEvent) :
    runMapEvents b (l1 ++ l2) = runMapEvents (runMapEvents b l1) l2 := by
  unfold runMapEvents
  exact List.foldl_append _ _ _ _

/-- C6 counterexample: after the tile (0,0) loads, the bounds rectangle
    contains the point (8,8); a later historical seeding with the single
    point (1000,1000) reassigns the rectangle to [900,1100]×[900,1100],
    which no longer contains (8,8) — the bounds after the full sequence
    are not a superset of the bounds after the prefix, refuting the
    claimed monotonicity for mixed tile/historical sequences. -/
theorem world_bounds_shrink_counterexample :
    containsPt (runMapEvents boundsReset [MapEvent.tileLoaded 0 0]) (8, 8) ∧
    ¬ containsPt (runMapEvents boundsReset
        [MapEvent.tileLoaded 0 0, MapEvent.histSeed [(1000, 1000)]]) (8, 8) := by
  have hpre : runMapEvents boundsReset [MapEvent.tileLoaded 0 0] = ⟨0, 16, 0, 16, true⟩ := by
    simp only [runMapEvents, List.foldl_cons, List.foldl_nil, applyMapEvent,
      applyTileLoaded, boundsReset]
    norm_num
  have hrun : runMapEvents boundsReset
      [MapEvent.tileLoaded 0 0, MapEvent.histSeed [(1000, 1000)]]
      = ⟨900, 1100, 900, 1100, true⟩ := by
    simp only [runMapEvents, List.foldl_cons, List.foldl_nil, applyMapEvent,
      applyTileLoaded, applyHistSeed, boundsReset, qListMin, qListMax]
    norm_num
  constructor
  · rw [hpre]
    refine ⟨rfl, ?_, ?_, ?_, ?_⟩ <;> norm_num
  · intro hc
    rw [hrun] at hc
    have h8 := hc.2.1
    norm_num at h8

/-- C6 amended: world bounds grow monotonically (the rectangle after
    processing extends the rectangle after any prefix) for sequences made
    of tile-load completions alone; the one-shot historical seeding,
    however, reassigns the rectangle from the historical points only and
    can shrink previously grown bounds (see the counterexample), so the
    claimed monotonicity holds only until a historical seeding occurs. -/
theorem tile_bounds_monotone (b : WorldBounds) (tiles more : List (ℤ × ℤ)) (p : ℚ × ℚ)
    (h : containsPt (runMapEvents b (tileEvents tiles)) p) :
    containsPt (runMapEvents b (tileEvents (tiles ++ more))) p := by
  have hsplit : tileEvents (tiles ++ more) = tileEvents tiles ++ tileEvents more :=
    List.map_append _ _ _
  rw [hsplit, runMapEvents_append]
  exact containsPt_runTiles more _ p h

theorem tile_bounds_monotone_pre :
    containsPt (runMapEvents boundsReset (tileEvents [(0, 0)])) (8, 8) := by
  have hpre : runMapEvents boundsReset (tileEvents [(0, 0)]) = ⟨0, 16, 0, 16, true⟩ := by
    simp only [runMapEvents, tileEvents, List.map_cons, List.map_nil, List.foldl_cons,
      List.foldl_nil, applyMapEvent, applyTileLoaded, boundsReset]
    norm_num
  rw [hpre]
  refine ⟨rfl, ?_, ?_, ?_, ?_⟩ <;> norm_num

/-- C6 witness: the amended monotonicity at a concrete pair of tile lists. -/
theorem tile_bounds_monotone_check :
    containsPt (runMapEvents boundsReset (tileEvents [(0, 0)])) (8, 8) ∧
    containsPt (runMapEvents boundsReset (tileEvents ([(0, 0)] ++ [(5, 5)]))) (8, 8) :=
  ⟨tile_bounds_monotone_pre, tile_bounds_monotone boundsReset [(0, 0)] [(5, 5)] (8, 8)
    tile_bounds_monotone_pre⟩

/- ======================= Claim theorems: C5 ======================= -/

theorem segDist_nonneg (a b : ℝ × ℝ) : 0 ≤ segDist a b := Real.sqrt_nonneg _

theorem segDist_horiz (x1 x2 : ℝ) (h : x1 ≤ x2) : segDist (x1, 0) (x2, 0) = x2 - x1 := by
  unfold segDist
  rw [show ((x2, (0:ℝ)).1 - (x1, (0:ℝ)).1) ^ 2 + ((x2, (0:ℝ)).2 - (x1, (0:ℝ)).2) ^ 2
    = (x2 - x1) ^ 2 by ring]
  rw [Real.sqrt_sq_eq_abs]
  exact abs_of_nonneg (sub_nonneg.mpr h)

theorem chevronSteps_le (rest : List (ℝ × ℝ)) : ∀ (prev : ℝ × ℝ) (acc : ℝ) (count : ℕ),
    0 ≤ acc →
    60 * (chevronSteps prev rest acc count : ℝ) ≤ 60 * count + acc + pathLengthFrom prev rest := by
  induction rest with
  | nil =>
    intro prev acc count hacc
    rw [chevronSteps, pathLengthFrom]
    linarith
  | cons q t ih =>
    intro prev acc count hacc
    rw [chevronSteps, pathLengthFrom]
    have hseg : 0 ≤ segDist prev q := segDist_nonneg prev q
    split
    · rename_i hcond
      have hrec := ih q 0 (count + 1) le_rfl
      push_cast at hrec ⊢
      linarith
    · rename_i hcond
      have hrec := ih q (acc + segDist prev q) count (by linarith)
      linarith

/-- C5 counterexample: a straight selected-session path rendered as the
    single screen segment (0,0)-(150,0) has total screen length L = 150,
    so the claim predicts floor(150/60) = 2 chevrons; the loop draws only
    1, because crossing the threshold resets the accumulator to zero and
    discards the overshoot. The chevron count is therefore not floor(L/d)
    and not independent of how the same straight line is sampled. -/
theorem chevron_density_counterexample :
    chevronCount [((0:ℝ), (0:ℝ)), (150, 0)]
      ≠ Nat.floor (pathLen [((0:ℝ), (0:ℝ)), (150, 0)] / 60) ∧
    chevronCount [((0:ℝ), (0:ℝ)), (150, 0)] = 1 ∧
    pathLen [((0:ℝ), (0:ℝ)), (150, 0)] = 150 ∧
    Nat.floor ((150:ℝ) / 60) = 2 := by
  have d1 : segDist ((0:ℝ), (0:ℝ)) (150, 0) = 150 := by
    rw [segDist_horiz 0 150 (by norm_num)]
    norm_num
  have hlen : pathLen [((0:ℝ), (0:ℝ)), (150, 0)] = 150 := by
    rw [pathLen, pathLengthFrom, pathLengthFrom, d1]
    norm_num
  have hcount : chevronCount [((0:ℝ), (0:ℝ)), (150, 0)] = 1 := by
    rw [chevronCount, chevronSteps, d1, if_pos (by norm_num : (60:ℝ) ≤ 0 + 150)]
    rfl
  have hfloor : Nat.floor ((150:ℝ) / 60) = 2 := by
    rw [Nat.floor_eq_iff (by norm_num)]
    norm_num
  refine ⟨?_, hcount, hlen, hfloor⟩
  rw [hcount, hlen, hfloor]
  norm_num

/-- C5 amended: the chevron loop emits a chevron each time the
    accumulated screen distance reaches the 60 px threshold and then
    resets the accumulator, so the count is bounded by L/60 (hence by
    floor(L/60)) but does depend on the sampling: the same straight
    150 px line yields 1 chevron as a single segment (counterexample) and
    2 chevrons — the full floor(150/60) — when sampled every 30 px. -/
theorem chevron_density_bound :
    (∀ pts : List (ℝ × ℝ), 60 * (chevronCount pts : ℝ) ≤ pathLen pts) ∧
    chevronCount [((0:ℝ), (0:ℝ)), (30, 0), (60, 0), (90, 0), (120, 0), (150, 0)] = 2 ∧
    pathLen [((0:ℝ), (0:ℝ)), (30, 0), (60, 0), (90, 0), (120, 0), (150, 0)] = 150 := by
  have d01 : segDist ((0:ℝ), (0:ℝ)) (30, 0) = 30 := by
    rw [segDist_horiz 0 30 (by norm_num)]
    norm_num
  have d12 : segDist ((30:ℝ), (0:ℝ)) (60, 0) = 30 := by
    rw [segDist_horiz 30 60 (by norm_num)]
    norm_num
  have d23 : segDist ((60:ℝ), (0:ℝ)) (90, 0) = 30 := by
    rw [segDist_horiz 60 90 (by norm_num)]
    norm_num
  have d34 : segDist ((90:ℝ), (0:ℝ)) (120, 0) = 30 := by
    rw [segDist_horiz 90 120 (by norm_num)]
    norm_num
  have d45 : segDist ((120:ℝ), (0:ℝ)) (150, 0) = 30 := by
    rw [segDist_horiz 120 150 (by norm_num)]
    norm_num
  refine ⟨?_, ?_, ?_⟩
  · intro pts
    cases pts with
    | nil =>
      rw [chevronCount, pathLen]
      norm_num
    | cons p rest =>
      have hb := chevronSteps_le rest p 0 0 le_rfl
      rw [chevronCount, pathLen]
      push_cast at hb ⊢
      linarith
  · rw [chevronCount, chevronSteps, d01, if_neg (by norm_num : ¬ (60:ℝ) ≤ 0 + 30)]
    rw [chevronSteps, d12, if_pos (by norm_num : (60:ℝ) ≤ 0 + 30 + 30)]
    rw [chevronSteps, d23, if_neg (by norm_num : ¬ (60:ℝ) ≤ 0 + 30)]
    rw [chevronSteps, d34, if_pos (by norm_num : (60:ℝ) ≤ 0 + 30 + 30)]
    rw [chevronSteps, d45, if_neg (by norm_num : ¬ (60:ℝ) ≤ 0 + 30)]
    rfl
  · rw [pathLen, pathLengthFrom, pathLengthFrom, pathLengthFrom, pathLengthFrom,
      pathLengthFrom, pathLengthFrom, d01, d12, d23, d34, d45]
    norm_num
